import Mathlib

/-!
Verification of the WIR-to-WAV converter (`wir2wav.py`).

Bytes are modelled as natural numbers (values < 256 in every real byte
string); byte strings are `List Nat`.  Python operations that raise an
exception or never return are modelled with `Option`: `none` means that the
source code does not produce a value at this input (a raised `struct.error`,
or the non-terminating `while` loop of `dataWithChannelRemoved` when
`numChannels = 0`).

The console diagnostic on line 93 of the source
(`print(f"... for {wir} ...")`) is out-of-scope console logging and is not
modelled, except that its `durationSecs` interpolation divides by
`numChannels` and `framerate`: a `ZeroDivisionError` there prevents any WAV
output, so `writeWav` is `none` when either of those fields is zero.
-/

namespace Wir2Wav

/-- Little-endian byte list of a 16-bit value, as produced by
`struct.pack` format `H` for an in-range argument. -/
def u16le (v : Nat) : List Nat :=
  [v % 256, v / 256 % 256]

/-- Little-endian byte list of a 32-bit value, as produced by
`struct.pack` format `I` for an in-range argument. -/
def u32le (v : Nat) : List Nat :=
  [v % 256, v / 256 % 256, v / 65536 % 256, v / 16777216 % 256]

/-- The unsigned 16-bit little-endian integer stored at offset `off` of a
byte list (missing bytes read as 0). -/
def u16At (l : List Nat) (off : Nat) : Nat :=
  l.getD off 0 + 256 * l.getD (off + 1) 0

/-- The unsigned 32-bit little-endian integer stored at offset `off` of a
byte list (missing bytes read as 0). -/
def u32At (l : List Nat) (off : Nat) : Nat :=
  l.getD off 0 + 256 * l.getD (off + 1) 0 + 65536 * l.getD (off + 2) 0 +
    16777216 * l.getD (off + 3) 0

/-- `struct.unpack("H", l)`: succeeds exactly on a 2-byte buffer, returning
the little-endian 16-bit value; on any other length `struct.error` is
raised, modelled as `none`. -/
def unpackU16 (l : List Nat) : Option Nat :=
  match l with
  | [b0, b1] => some (b0 + 256 * b1)
  | _ => none

/-- `struct.unpack("I", l)`: succeeds exactly on a 4-byte buffer, returning
the little-endian 32-bit value; otherwise `none` (`struct.error`). -/
def unpackU32 (l : List Nat) : Option Nat :=
  match l with
  | [b0, b1, b2, b3] => some (b0 + 256 * b1 + 65536 * b2 + 16777216 * b3)
  | _ => none

/-- Header-field extraction of `WIR.__init__` (source lines 45-48): the
four `struct.unpack` calls on the slices `header[22:24]`, `header[24:28]`,
`header[28:32]`, `header[32:34]`, in program order, yielding
`(numChannels, framerate, fs2, channelsMask)`. -/
def parseHeader (header : List Nat) : Option (Nat × Nat × Nat × Nat) := do
  let numChannels ← unpackU16 ((header.drop 22).take 2)
  let framerate ← unpackU32 ((header.drop 24).take 4)
  let fs2 ← unpackU32 ((header.drop 28).take 4)
  let channelsMask ← unpackU16 ((header.drop 32).take 2)
  some (numChannels, framerate, fs2, channelsMask)

/-- The `Channels` enum of the source (MONO = 4, STEREO = 8,
TRUE_STEREO = 16). -/
inductive Channels
  | MONO
  | STEREO
  | TRUE_STEREO
deriving DecidableEq

/-- The numeric value of each `Channels` member. -/
def Channels.value : Channels → Nat
  | .MONO => 4
  | .STEREO => 8
  | .TRUE_STEREO => 16

/-- A loaded WIR file: the four header fields extracted by `__init__`
together with the trailing sample bytes (`self.data`).  The `path` field is
diagnostics-only and is not modelled. -/
structure WIR where
  numChannels : Nat
  framerate : Nat
  fs2 : Nat
  channelsMask : Nat
  data : List Nat
deriving DecidableEq

/-- The `while offs < len(self.data)` loop of `dataWithChannelRemoved`
(source lines 67-76), recursing on the bytes that remain from `offs`.
Each iteration takes `frame = data[offs:offs+framesize]` (second argument
`fsz`), writes `frame[:channelIdx*4]` when `channelIdx > 0`, then writes
`frame[channelIdx*4+4:]`, then advances by `framesize`.  The first
argument is structural-recursion fuel; every iteration with
`framesize ≥ 1` consumes at least one byte, so `fuel = data.length`
(what `dataWithChannelRemoved` passes) reproduces the loop exactly.  The
fuel can run out only when `framesize = 0`, where the source loop never
terminates; the wrapper reports that case as `none` instead. -/
def removeChannelLoop : Nat → Nat → Nat → List Nat → List Nat
  | _, _, _, [] => []
  | 0, _, _, _ :: _ => []
  | fuel + 1, fsz, channelIdx, a :: rest =>
    ((if 0 < channelIdx then ((a :: rest).take fsz).take (channelIdx * 4) else []) ++
      ((a :: rest).take fsz).drop (channelIdx * 4 + 4)) ++
      removeChannelLoop fuel fsz channelIdx ((a :: rest).drop fsz)

/-- `WIR.dataWithChannelRemoved` (source lines 60-76).  `framesize` is
`numChannels * 4`; when it is zero and the data is nonempty the source's
`while` loop never advances `offs` and never returns, modelled as
`none`. -/
def WIR.dataWithChannelRemoved (w : WIR) (channelIdx : Nat) : Option (List Nat) :=
  if w.numChannels = 0 ∧ w.data ≠ [] then none
  else some (removeChannelLoop w.data.length (w.numChannels * 4) channelIdx w.data)

/-- `struct.pack` of one `H` field: in-range values become two
little-endian bytes, out-of-range values raise `struct.error` (`none`). -/
def packH (v : Int) : Option (List Nat) :=
  if 0 ≤ v ∧ v < 65536 then some (u16le v.toNat) else none

/-- `struct.pack` of one `I` field: in-range values become four
little-endian bytes, out-of-range values raise `struct.error` (`none`). -/
def packI (v : Int) : Option (List Nat) :=
  if 0 ≤ v ∧ v < 4294967296 then some (u32le v.toNat) else none

/-- The WAV container emission of `writeWav` (source lines 96-109): the
two `struct.pack` calls followed by the raw data, with every variable
field packed through `packH`/`packI`.  `numChannels` is an `Int` because
the caller passes `self.numChannels - 1` on the channel-removal path,
which can be negative in Python.  Constant fields (`0x10` fmt-chunk size,
format tag 3, block alignment 4, 32 bits per sample) are packed to their
literal bytes. -/
def encode (numChannels : Int) (sampleRate : Nat) (data : List Nat) : Option (List Nat) := do
  let riffSize ← packI ((data.length + 0x2c - 8 : Nat) : Int)
  let fmtSize ← packI (16 : Int)
  let fmtTag ← packH (3 : Int)
  let ch ← packH numChannels
  let sampleRateBytes ← packI (sampleRate : Int)
  let byteRate ← packI (numChannels * sampleRate * 4)
  let blockAlign ← packH (4 : Int)
  let bitsPerSample ← packH (32 : Int)
  let dataSize ← packI ((data.length : Nat) : Int)
  some ([82, 73, 70, 70] ++ riffSize ++ [87, 65, 86, 69] ++ [102, 109, 116, 32] ++
    fmtSize ++ fmtTag ++ ch ++ sampleRateBytes ++ byteRate ++ blockAlign ++
    bitsPerSample ++ [100, 97, 116, 97] ++ dataSize ++ data)

/-- `WIR.writeWav` (source lines 78-109), returning the bytes written to
the output file.  The channel-removal policy is source lines 86-92
verbatim; the `numChannels = 0 ∨ framerate = 0` guard models the
`ZeroDivisionError` raised while formatting the line-93 diagnostic
(`durationSecs` divides by both fields) before any byte is written. -/
def WIR.writeWav (w : WIR) (removeAdditionalMonoChannel : Bool) : Option (List Nat) :=
  if (0 < w.channelsMask &&& Channels.MONO.value ∧ w.channelsMask ≠ Channels.MONO.value) ∧
      removeAdditionalMonoChannel = true then
    match w.dataWithChannelRemoved 0 with
    | none => none
    | some data =>
      if w.numChannels = 0 ∨ w.framerate = 0 then none
      else encode ((w.numChannels : Int) - 1) w.framerate data
  else
    if w.numChannels = 0 ∨ w.framerate = 0 then none
    else encode (w.numChannels : Int) w.framerate w.data

/-- Fueled decomposition of a byte string into successive frames of
`fsz` bytes, the last one possibly shorter; the fuel argument mirrors
`removeChannelLoop`'s and is likewise exact at `fuel = data.length`
whenever `fsz ≥ 1`. -/
def framesOfGo : Nat → Nat → List Nat → List (List Nat)
  | _, _, [] => []
  | 0, _, _ :: _ => []
  | fuel + 1, fsz, a :: rest =>
    ((a :: rest).take fsz) :: framesOfGo fuel fsz ((a :: rest).drop fsz)

/-- The frame decomposition described by the spec: successive frames of
`fsz` bytes, the last one possibly shorter (meaningful for `fsz ≥ 1`). -/
def framesOf (fsz : Nat) (data : List Nat) : List (List Nat) :=
  framesOfGo data.length fsz data

/-- Removal of the 4-byte span `[i*4, i*4+4)` from one frame, exactly as
the spec words it: bytes before the span, then bytes after it. -/
def exciseSample (i : Nat) (fr : List Nat) : List Nat :=
  fr.take (i * 4) ++ fr.drop (i * 4 + 4)

/-- The byte string `encode` produces when every packed field is in range
(proved as `encode_eq` below). -/
def wavBytes (nc : Int) (sr : Nat) (data : List Nat) : List Nat :=
  [82, 73, 70, 70] ++ u32le (data.length + 0x2c - 8) ++ [87, 65, 86, 69] ++
    [102, 109, 116, 32] ++ u32le 16 ++ u16le 3 ++ u16le nc.toNat ++ u32le sr ++
    u32le (nc * sr * 4).toNat ++ u16le 4 ++ u16le 32 ++ [100, 97, 116, 97] ++
    u32le data.length ++ data

/-! ### Supporting lemmas about the encoder -/

theorem packI_natCast (n : Nat) (h : (n : Int) < 4294967296) :
    packI (n : Int) = some (u32le n) := by
  unfold packI
  rw [if_pos ⟨Int.natCast_nonneg _, h⟩, Int.toNat_natCast]

theorem packH_of (v : Int) (h1 : 0 ≤ v) (h2 : v < 65536) : packH v = some (u16le v.toNat) := by
  unfold packH
  rw [if_pos ⟨h1, h2⟩]

theorem packI_of (v : Int) (h1 : 0 ≤ v) (h2 : v < 4294967296) :
    packI v = some (u32le v.toNat) := by
  unfold packI
  rw [if_pos ⟨h1, h2⟩]

theorem packI_16 : packI (16 : Int) = some (u32le 16) := by decide

theorem packH_3 : packH (3 : Int) = some (u16le 3) := by decide

theorem packH_4 : packH (4 : Int) = some (u16le 4) := by decide

theorem packH_32 : packH (32 : Int) = some (u16le 32) := by decide

/-- When every packed field is in range, `encode` succeeds and emits
`wavBytes`. -/
theorem encode_eq (nc : Int) (sr : Nat) (data : List Nat) (h1 : 0 ≤ nc) (h2 : nc < 65536)
    (h3 : (sr : Int) < 4294967296) (h4 : nc * sr * 4 < 4294967296)
    (h5 : ((data.length : Int) + 36) < 4294967296) :
    encode nc sr data = some (wavBytes nc sr data) := by
  unfold encode wavBytes
  rw [packI_natCast (data.length + 0x2c - 8) (by push_cast; omega),
    packH_of nc h1 h2, packI_natCast sr h3,
    packI_of (nc * sr * 4) (by positivity) h4,
    packI_natCast data.length (by omega),
    packI_16, packH_3, packH_4, packH_32]
  rfl

theorem encode_none_len (nc : Int) (sr : Nat) (data : List Nat)
    (h : ¬ ((data.length : Int) + 36) < 4294967296) : encode nc sr data = none := by
  have e : packI ((data.length + 0x2c - 8 : Nat) : Int) = none := by
    unfold packI
    rw [if_neg]
    intro hc
    exact h (by push_cast at hc ⊢; omega)
  unfold encode
  rw [e]
  rfl

theorem encode_none_nc (nc : Int) (sr : Nat) (data : List Nat)
    (hlen : ((data.length : Int) + 36) < 4294967296)
    (h : ¬ (0 ≤ nc ∧ nc < 65536)) : encode nc sr data = none := by
  have e : packH nc = none := by
    unfold packH
    rw [if_neg h]
  unfold encode
  rw [packI_natCast (data.length + 0x2c - 8) (by push_cast; omega), packI_16, packH_3, e]
  rfl

theorem encode_none_sr (nc : Int) (sr : Nat) (data : List Nat)
    (hlen : ((data.length : Int) + 36) < 4294967296)
    (hnc : 0 ≤ nc ∧ nc < 65536)
    (h : ¬ (sr : Int) < 4294967296) : encode nc sr data = none := by
  have e : packI (sr : Int) = none := by
    unfold packI
    rw [if_neg]
    intro hc
    exact h hc.2
  unfold encode
  rw [packI_natCast (data.length + 0x2c - 8) (by push_cast; omega), packI_16, packH_3,
    packH_of nc hnc.1 hnc.2, e]
  rfl

theorem encode_none_br (nc : Int) (sr : Nat) (data : List Nat)
    (hlen : ((data.length : Int) + 36) < 4294967296)
    (hnc : 0 ≤ nc ∧ nc < 65536) (hsr : (sr : Int) < 4294967296)
    (h : ¬ nc * sr * 4 < 4294967296) : encode nc sr data = none := by
  have e : packI (nc * sr * 4) = none := by
    unfold packI
    rw [if_neg]
    intro hc
    exact h hc.2
  unfold encode
  rw [packI_natCast (data.length + 0x2c - 8) (by push_cast; omega), packI_16, packH_3,
    packH_of nc hnc.1 hnc.2, packI_natCast sr hsr, e]
  rfl

/-- Inversion: a successful `encode` forces every field in range and pins
the emitted bytes to `wavBytes`. -/
theorem encode_some_inv (nc : Int) (sr : Nat) (data wav : List Nat)
    (h : encode nc sr data = some wav) :
    0 ≤ nc ∧ nc < 65536 ∧ (sr : Int) < 4294967296 ∧ nc * sr * 4 < 4294967296 ∧
      ((data.length : Int) + 36) < 4294967296 ∧ wav = wavBytes nc sr data := by
  by_cases c5 : ((data.length : Int) + 36) < 4294967296
  · by_cases c2 : 0 ≤ nc ∧ nc < 65536
    · by_cases c3 : (sr : Int) < 4294967296
      · by_cases c4 : nc * sr * 4 < 4294967296
        · rw [encode_eq nc sr data c2.1 c2.2 c3 c4 c5] at h
          exact ⟨c2.1, c2.2, c3, c4, c5, (Option.some_inj.mp h).symm⟩
        · rw [encode_none_br nc sr data c5 c2 c3 c4] at h
          exact absurd h (by simp)
      · rw [encode_none_sr nc sr data c5 c2 c3] at h
        exact absurd h (by simp)
    · rw [encode_none_nc nc sr data c5 c2] at h
      exact absurd h (by simp)
  · rw [encode_none_len nc sr data c5] at h
    exact absurd h (by simp)

/-! ### Reading the emitted container back, field by field -/

theorem wavBytes_riff_magic (nc : Int) (sr : Nat) (data : List Nat) :
    (wavBytes nc sr data).take 4 = [82, 73, 70, 70] := by
  simp only [wavBytes, u16le, u32le, List.cons_append, List.nil_append, List.take_succ_cons,
    List.take_zero]

theorem wavBytes_riff_size (nc : Int) (sr : Nat) (data : List Nat)
    (h : data.length + 36 < 4294967296) :
    u32At (wavBytes nc sr data) 4 = data.length + 0x2c - 8 := by
  simp only [wavBytes, u32At, u16le, u32le, List.cons_append, List.nil_append,
    List.getD_cons_succ, List.getD_cons_zero]
  omega

theorem wavBytes_wave_magic (nc : Int) (sr : Nat) (data : List Nat) :
    ((wavBytes nc sr data).drop 8).take 4 = [87, 65, 86, 69] := by
  simp only [wavBytes, u16le, u32le, List.cons_append, List.nil_append, List.drop_succ_cons,
    List.drop_zero, List.take_succ_cons, List.take_zero]

theorem wavBytes_fmt_magic (nc : Int) (sr : Nat) (data : List Nat) :
    ((wavBytes nc sr data).drop 12).take 4 = [102, 109, 116, 32] := by
  simp only [wavBytes, u16le, u32le, List.cons_append, List.nil_append, List.drop_succ_cons,
    List.drop_zero, List.take_succ_cons, List.take_zero]

theorem wavBytes_fmt_size (nc : Int) (sr : Nat) (data : List Nat) :
    u32At (wavBytes nc sr data) 16 = 16 := by
  simp only [wavBytes, u32At, u16le, u32le, List.cons_append, List.nil_append,
    List.getD_cons_succ, List.getD_cons_zero]

theorem wavBytes_fmt_tag (nc : Int) (sr : Nat) (data : List Nat) :
    u16At (wavBytes nc sr data) 20 = 3 := by
  simp only [wavBytes, u16At, u16le, u32le, List.cons_append, List.nil_append,
    List.getD_cons_succ, List.getD_cons_zero]

theorem wavBytes_channels (nc : Int) (sr : Nat) (data : List Nat) (h : nc.toNat < 65536) :
    u16At (wavBytes nc sr data) 22 = nc.toNat := by
  simp only [wavBytes, u16At, u16le, u32le, List.cons_append, List.nil_append,
    List.getD_cons_succ, List.getD_cons_zero]
  omega

theorem wavBytes_data_magic (nc : Int) (sr : Nat) (data : List Nat) :
    ((wavBytes nc sr data).drop 36).take 4 = [100, 97, 116, 97] := by
  simp only [wavBytes, u16le, u32le, List.cons_append, List.nil_append, List.drop_succ_cons,
    List.drop_zero, List.take_succ_cons, List.take_zero]

theorem wavBytes_data_size (nc : Int) (sr : Nat) (data : List Nat)
    (h : data.length < 4294967296) :
    u32At (wavBytes nc sr data) 40 = data.length := by
  simp only [wavBytes, u32At, u16le, u32le, List.cons_append, List.nil_append,
    List.getD_cons_succ, List.getD_cons_zero]
  omega

theorem wavBytes_payload (nc : Int) (sr : Nat) (data : List Nat) :
    (wavBytes nc sr data).drop 44 = data := by
  simp only [wavBytes, u16le, u32le, List.cons_append, List.nil_append, List.drop_succ_cons,
    List.drop_zero]

/-! ### Supporting lemmas about the channel-removal loop -/

/-- With a positive frame size and enough fuel, the loop is exactly
frame-wise excision: decompose into frames, excise the span from each
frame, concatenate. -/
theorem removeChannelLoop_eq_flatten (fsz idx : Nat) (hf : 0 < fsz) :
    ∀ (fuel : Nat) (data : List Nat), data.length ≤ fuel →
      removeChannelLoop fuel fsz idx data =
        ((framesOfGo fuel fsz data).map (exciseSample idx)).flatten := by
  intro fuel
  induction fuel with
  | zero =>
    intro data h
    have hd : data = [] := List.length_eq_zero.mp (by omega)
    subst hd
    rfl
  | succ n ih =>
    intro data h
    cases data with
    | nil => rfl
    | cons a rest =>
      have hr : ((a :: rest).drop fsz).length ≤ n := by
        simp only [List.length_drop, List.length_cons] at h ⊢
        omega
      simp only [removeChannelLoop, framesOfGo, List.map_cons, List.flatten_cons, ih _ hr]
      rcases Nat.eq_zero_or_pos idx with h0 | h0
      · subst h0
        simp [exciseSample]
      · rw [if_pos h0]
        simp [exciseSample]

/-- The loop never produces more bytes than it was given. -/
theorem removeChannelLoop_length_le (fsz idx : Nat) :
    ∀ (fuel : Nat) (data : List Nat),
      (removeChannelLoop fuel fsz idx data).length ≤ data.length := by
  intro fuel
  induction fuel with
  | zero =>
    intro data
    cases data <;> simp [removeChannelLoop]
  | succ n ih =>
    intro data
    cases data with
    | nil => simp [removeChannelLoop]
    | cons a rest =>
      have hr := ih ((a :: rest).drop fsz)
      simp only [removeChannelLoop, List.length_append]
      have h1 : (if 0 < idx then ((a :: rest).take fsz).take (idx * 4) else []).length ≤
          min (idx * 4) (min fsz (a :: rest).length) := by
        split <;> simp [List.length_take]
      have h2 : (((a :: rest).take fsz).drop (idx * 4 + 4)).length =
          min fsz (a :: rest).length - (idx * 4 + 4) := by
        simp [List.length_drop, List.length_take]
      have h3 : ((a :: rest).drop fsz).length = (a :: rest).length - fsz := by simp
      omega

/-- On a well-formed buffer (`C*4` divides the length) every frame is
full, and each frame loses exactly 4 bytes: the output length is
`len / (C*4) * ((C-1)*4)`. -/
theorem removeChannelLoop_length_dvd (C idx : Nat) (hC : 0 < C) (hi : idx < C) :
    ∀ (fuel : Nat) (data : List Nat), data.length ≤ fuel → (C * 4) ∣ data.length →
      (removeChannelLoop fuel (C * 4) idx data).length =
        data.length / (C * 4) * ((C - 1) * 4) := by
  intro fuel
  induction fuel with
  | zero =>
    intro data h _
    have hd : data = [] := List.length_eq_zero.mp (by omega)
    subst hd
    simp [removeChannelLoop]
  | succ n ih =>
    intro data hlen hdvd
    cases data with
    | nil => simp [removeChannelLoop]
    | cons a rest =>
      have hCL : C * 4 ≤ (a :: rest).length := Nat.le_of_dvd (by simp) hdvd
      obtain ⟨k, hk⟩ := hdvd
      rcases k with _ | k'
      · simp at hk
      have hrec_len : ((a :: rest).drop (C * 4)).length ≤ n := by
        simp only [List.length_drop, List.length_cons] at hlen ⊢
        omega
      have hrec_dvd : (C * 4) ∣ ((a :: rest).drop (C * 4)).length := by
        simp only [List.length_drop]
        exact Nat.dvd_sub' ⟨k' + 1, hk⟩ dvd_rfl
      have hrec := ih _ hrec_len hrec_dvd
      simp only [removeChannelLoop, List.length_append]
      rw [hrec]
      have e1 : (a :: rest).length / (C * 4) = k' + 1 := by
        rw [hk]
        exact Nat.mul_div_cancel_left _ (by omega)
      have e2 : ((a :: rest).drop (C * 4)).length / (C * 4) = k' := by
        simp only [List.length_drop]
        rw [hk, Nat.mul_succ, Nat.add_sub_cancel]
        exact Nat.mul_div_cancel_left _ (by omega)
      have h1 : (if 0 < idx then ((a :: rest).take (C * 4)).take (idx * 4) else []).length =
          idx * 4 := by
        split
        · simp only [List.length_take]
          omega
        · simp only [List.length_nil]
          omega
      have h2 : (((a :: rest).take (C * 4)).drop (idx * 4 + 4)).length =
          C * 4 - (idx * 4 + 4) := by
        simp only [List.length_drop, List.length_take]
        omega
      rw [h1, h2, e1, e2, Nat.succ_mul]
      have : idx * 4 + (C * 4 - (idx * 4 + 4)) = (C - 1) * 4 := by omega
      omega

/-- When the requested channel index lies at or past the end of every
frame, each frame is copied whole and the loop is the identity. -/
theorem removeChannelLoop_id (fsz idx : Nat) (hf : 0 < fsz) (hle : fsz ≤ idx * 4)
    (hidx : 0 < idx) :
    ∀ (fuel : Nat) (data : List Nat), data.length ≤ fuel →
      removeChannelLoop fuel fsz idx data = data := by
  intro fuel
  induction fuel with
  | zero =>
    intro data h
    have hd : data = [] := List.length_eq_zero.mp (by omega)
    subst hd
    rfl
  | succ n ih =>
    intro data h
    cases data with
    | nil => rfl
    | cons a rest =>
      simp only [removeChannelLoop, if_pos hidx]
      have hfr : ((a :: rest).take fsz).take (idx * 4) = (a :: rest).take fsz :=
        List.take_of_length_le (by simp [List.length_take]; omega)
      have hdr : ((a :: rest).take fsz).drop (idx * 4 + 4) = [] :=
        List.drop_eq_nil_of_le (by simp [List.length_take]; omega)
      have hrec : ((a :: rest).drop fsz).length ≤ n := by
        simp only [List.length_drop, List.length_cons] at h ⊢
        omega
      rw [hfr, hdr, List.append_nil, ih _ hrec, List.take_append_drop]

/-! ### Supporting lemmas about the header parser -/

theorem drop_take_two (l : List Nat) (a : Nat) (h : a + 2 ≤ l.length) :
    (l.drop a).take 2 = [l.getD a 0, l.getD (a + 1) 0] := by
  rw [List.drop_eq_getElem_cons (show a < l.length by omega), List.take_succ_cons,
    List.drop_eq_getElem_cons (show a + 1 < l.length by omega), List.take_succ_cons,
    List.take_zero, List.getD_eq_getElem l 0 (show a < l.length by omega),
    List.getD_eq_getElem l 0 (show a + 1 < l.length by omega)]

theorem drop_take_four (l : List Nat) (a : Nat) (h : a + 4 ≤ l.length) :
    (l.drop a).take 4 =
      [l.getD a 0, l.getD (a + 1) 0, l.getD (a + 2) 0, l.getD (a + 3) 0] := by
  rw [List.drop_eq_getElem_cons (show a < l.length by omega), List.take_succ_cons,
    List.drop_eq_getElem_cons (show a + 1 < l.length by omega), List.take_succ_cons,
    List.drop_eq_getElem_cons (show a + 1 + 1 < l.length by omega), List.take_succ_cons,
    List.drop_eq_getElem_cons (show a + 1 + 1 + 1 < l.length by omega), List.take_succ_cons,
    List.take_zero, List.getD_eq_getElem l 0 (show a < l.length by omega),
    List.getD_eq_getElem l 0 (show a + 1 < l.length by omega),
    List.getD_eq_getElem l 0 (show a + 2 < l.length by omega),
    List.getD_eq_getElem l 0 (show a + 3 < l.length by omega)]

theorem unpackU16_isSome (l : List Nat) : (unpackU16 l).isSome = true ↔ l.length = 2 := by
  match l with
  | [] => simp [unpackU16]
  | [a] => simp [unpackU16]
  | [a, b] => simp [unpackU16]
  | a :: b :: c :: t => simp [unpackU16]

theorem unpackU32_isSome (l : List Nat) : (unpackU32 l).isSome = true ↔ l.length = 4 := by
  match l with
  | [] => simp [unpackU32]
  | [a] => simp [unpackU32]
  | [a, b] => simp [unpackU32]
  | [a, b, c] => simp [unpackU32]
  | [a, b, c, d] => simp [unpackU32]
  | a :: b :: c :: d :: e :: t => simp [unpackU32]

/-- C8 amended: the parser performs no header-length validation at all:
field extraction succeeds and returns the parsed tuple exactly when the
blob has at least 34 bytes (so that the last slice `[32,34)` is
complete); on shorter input the failure is a `struct.error` from an
incomplete slice, not a `MalformedHeader` error. -/
theorem claim8_amended_no_length_check (header : List Nat) :
    (parseHeader header).isSome = true ↔ 34 ≤ header.length := by
  constructor
  · intro h
    by_contra hlen
    push_neg at hlen
    have hnone : parseHeader header = none := by
      unfold parseHeader
      by_cases h24 : header.length < 24
      · have e : unpackU16 ((header.drop 22).take 2) = none := by
          apply Option.not_isSome_iff_eq_none.mp
          rw [unpackU16_isSome]
          simp only [List.length_take, List.length_drop]
          omega
        simp [e]
      · obtain ⟨v1, e1⟩ := Option.isSome_iff_exists.mp ((unpackU16_isSome
          ((header.drop 22).take 2)).mpr (by simp only [List.length_take, List.length_drop]; omega))
        by_cases h28 : header.length < 28
        · have e : unpackU32 ((header.drop 24).take 4) = none := by
            apply Option.not_isSome_iff_eq_none.mp
            rw [unpackU32_isSome]
            simp only [List.length_take, List.length_drop]
            omega
          simp [e1, e]
        · obtain ⟨v2, e2⟩ := Option.isSome_iff_exists.mp ((unpackU32_isSome
            ((header.drop 24).take 4)).mpr (by simp only [List.length_take, List.length_drop]; omega))
          by_cases h32 : header.length < 32
          · have e : unpackU32 ((header.drop 28).take 4) = none := by
              apply Option.not_isSome_iff_eq_none.mp
              rw [unpackU32_isSome]
              simp only [List.length_take, List.length_drop]
              omega
            simp [e1, e2, e]
          · obtain ⟨v3, e3⟩ := Option.isSome_iff_exists.mp ((unpackU32_isSome
              ((header.drop 28).take 4)).mpr (by simp only [List.length_take, List.length_drop]; omega))
            have e : unpackU16 ((header.drop 32).take 2) = none := by
              apply Option.not_isSome_iff_eq_none.mp
              rw [unpackU16_isSome]
              simp only [List.length_take, List.length_drop]
              omega
            simp [e1, e2, e3, e]
    rw [hnone] at h
    simp at h
  · intro hlen
    obtain ⟨v1, e1⟩ := Option.isSome_iff_exists.mp ((unpackU16_isSome
      ((header.drop 22).take 2)).mpr (by simp only [List.length_take, List.length_drop]; omega))
    obtain ⟨v2, e2⟩ := Option.isSome_iff_exists.mp ((unpackU32_isSome
      ((header.drop 24).take 4)).mpr (by simp only [List.length_take, List.length_drop]; omega))
    obtain ⟨v3, e3⟩ := Option.isSome_iff_exists.mp ((unpackU32_isSome
      ((header.drop 28).take 4)).mpr (by simp only [List.length_take, List.length_drop]; omega))
    obtain ⟨v4, e4⟩ := Option.isSome_iff_exists.mp ((unpackU16_isSome
      ((header.drop 32).take 2)).mpr (by simp only [List.length_take, List.length_drop]; omega))
    unfold parseHeader
    simp [e1, e2, e3, e4]

/-! ### The claims -/

/-- C1: for every byte buffer whose length is an exact multiple of
`channelCount * 4` and every `channelIndex` in `[0, channelCount)`,
`dataWithChannelRemoved` returns the concatenation, over successive frames
of `channelCount * 4` bytes, of each frame with the 4-byte span
`[channelIndex*4, channelIndex*4+4)` excised, relative order preserved.
The 2-channel instances (`i = 0` yields `[R0, R1, ...]`, `i = 1` yields
`[L0, L1, ...]`) are the `channelCount = 2` instantiations, exercised by
the witness. -/
theorem claim1_removal_is_framewise_excision (w : WIR) (i k : Nat)
    (hlen : w.data.length = k * (w.numChannels * 4)) (hi : i < w.numChannels) :
    w.dataWithChannelRemoved i =
      some (((framesOf (w.numChannels * 4) w.data).map (exciseSample i)).flatten) := by
  unfold WIR.dataWithChannelRemoved framesOf
  rw [if_neg fun hc => absurd hc.1 (by omega)]
  exact congrArg some (removeChannelLoop_eq_flatten _ i (by omega) _ _ le_rfl)

/-- Witness for C1 at the claim's own stereo example: two frames
`(L0,R0), (L1,R1)` with `L0 = [1,2,3,4]`, `R0 = [5,6,7,8]`,
`L1 = [9,10,11,12]`, `R1 = [13,14,15,16]`; removing channel 0 yields
exactly `[R0, R1]` and removing channel 1 yields exactly `[L0, L1]`. -/
theorem claim1_witness :
    (WIR.mk 2 44100 44100 12 [1, 2, 3, 4, 5, 6, 7, 8, 9, 10, 11, 12, 13, 14, 15, 16]).dataWithChannelRemoved 0 =
        some [5, 6, 7, 8, 13, 14, 15, 16] ∧
      (WIR.mk 2 44100 44100 12 [1, 2, 3, 4, 5, 6, 7, 8, 9, 10, 11, 12, 13, 14, 15, 16]).dataWithChannelRemoved 1 =
        some [1, 2, 3, 4, 9, 10, 11, 12] := by
  constructor
  · rw [claim1_removal_is_framewise_excision _ 0 2 (by decide) (by decide)]
    decide
  · rw [claim1_removal_is_framewise_excision _ 1 2 (by decide) (by decide)]
    decide

/-- C2: on a well-formed buffer with `channelCount = C > 1` and any valid
index, the removal output length is `len * (C-1) / C`, equivalently
`len / (C*4) * ((C-1)*4)`. -/
theorem claim2_removal_length_law (w : WIR) (i : Nat)
    (hdvd : (w.numChannels * 4) ∣ w.data.length) (hC : 1 < w.numChannels)
    (hi : i < w.numChannels) :
    ∃ out, w.dataWithChannelRemoved i = some out ∧
      out.length = w.data.length * (w.numChannels - 1) / w.numChannels ∧
      out.length = w.data.length / (w.numChannels * 4) * ((w.numChannels - 1) * 4) := by
  refine ⟨removeChannelLoop w.data.length (w.numChannels * 4) i w.data, ?_, ?_, ?_⟩
  · unfold WIR.dataWithChannelRemoved
    rw [if_neg fun hc => absurd hc.1 (by omega)]
  · rw [removeChannelLoop_length_dvd w.numChannels i (by omega) hi w.data.length w.data
      le_rfl hdvd]
    obtain ⟨k, hk⟩ := hdvd
    rw [hk, Nat.mul_div_cancel_left _ (by omega)]
    have hsplit : w.numChannels * 4 * k * (w.numChannels - 1) =
        w.numChannels * (4 * k * (w.numChannels - 1)) := by ring
    rw [hsplit, Nat.mul_div_cancel_left _ (by omega)]
    ring
  · exact removeChannelLoop_length_dvd w.numChannels i (by omega) hi w.data.length w.data
      le_rfl hdvd

/-- Witness for C2: a 3-channel buffer of two 12-byte frames (24 bytes),
removing channel 1; the output length is `24 * 2 / 3 = 16`, which is also
`24 / 12 * 8`. -/
theorem claim2_witness :
    ∃ out,
      (WIR.mk 3 48000 0 0 [1, 2, 3, 4, 5, 6, 7, 8, 9, 10, 11, 12, 13, 14, 15, 16, 17, 18,
          19, 20, 21, 22, 23, 24]).dataWithChannelRemoved 1 = some out ∧
        out.length = 24 * (3 - 1) / 3 ∧
        out.length = 24 / (3 * 4) * ((3 - 1) * 4) :=
  claim2_removal_length_law
    (WIR.mk 3 48000 0 0 [1, 2, 3, 4, 5, 6, 7, 8, 9, 10, 11, 12, 13, 14, 15, 16, 17, 18,
      19, 20, 21, 22, 23, 24]) 1 (by decide) (by decide) (by decide)

/-- Counterexample to C9 as stated: the claim quantifies over every buffer
whose length is not an exact multiple of `channelCount * 4`, which
includes `channelCount = 0` with a nonempty buffer (the only multiple of
`0` is `0`).  There the source loop never advances `offs` and never
returns any sliced output (modelled as `none`), rather than processing
the remaining bytes by slicing. -/
theorem claim9_counterexample :
    ¬ ((WIR.mk 0 44100 0 0 [3]).numChannels * 4 ∣ (WIR.mk 0 44100 0 0 [3]).data.length) ∧
      (WIR.mk 0 44100 0 0 [3]).dataWithChannelRemoved 5 = none := by
  constructor
  · decide
  · decide

/-- C9 amended: provided additionally `channelCount ≥ 1` (so that the
frame size is positive and the source loop terminates), a buffer whose
length is not an exact multiple of `channelCount * 4` is processed
without raising: every frame, including the final partial one, goes
through the same slicing `frame[:i*4] ++ frame[i*4+4:]` on whatever bytes
are present. -/
theorem claim9_amended_ragged_framewise (w : WIR) (i : Nat) (hnc : 1 ≤ w.numChannels)
    (hndvd : ¬ (w.numChannels * 4) ∣ w.data.length) :
    w.dataWithChannelRemoved i =
      some (((framesOf (w.numChannels * 4) w.data).map (exciseSample i)).flatten) := by
  unfold WIR.dataWithChannelRemoved framesOf
  rw [if_neg fun hc => absurd hc.1 (by omega)]
  exact congrArg some (removeChannelLoop_eq_flatten _ i (by omega) _ _ le_rfl)

/-- Witness for the amended C9: 10 bytes in 2-channel framing (frame size
8, so one full frame and a 2-byte partial frame); removing channel 0
keeps `[5,6,7,8]` from the full frame and `[9,10][4:] = []` from the
partial one. -/
theorem claim9_witness :
    (WIR.mk 2 44100 0 0 [1, 2, 3, 4, 5, 6, 7, 8, 9, 10]).dataWithChannelRemoved 0 =
      some [5, 6, 7, 8] := by
  rw [claim9_amended_ragged_framewise (WIR.mk 2 44100 0 0 [1, 2, 3, 4, 5, 6, 7, 8, 9, 10]) 0
    (by decide) (by decide)]
  decide

/-- Counterexample to C10 as stated: the claim quantifies over every
buffer and every index `≥ channelCount`, which includes
`channelCount = 0`, where every index violates the precondition; there
the source loop never terminates (modelled `none`) instead of returning
the buffer unchanged. -/
theorem claim10_counterexample :
    (WIR.mk 0 44100 0 0 [1, 2]).dataWithChannelRemoved 7 = none ∧
      (WIR.mk 0 44100 0 0 [1, 2]).dataWithChannelRemoved 7 ≠
        some (WIR.mk 0 44100 0 0 [1, 2]).data := by
  constructor
  · decide
  · decide

/-- C10 amended: provided additionally `channelCount ≥ 1`, any index at
or past `channelCount` makes the excised span fall entirely outside every
frame, and `dataWithChannelRemoved` returns its input unchanged. -/
theorem claim10_amended_out_of_range_identity (w : WIR) (i : Nat)
    (hnc : 1 ≤ w.numChannels) (hi : w.numChannels ≤ i) :
    w.dataWithChannelRemoved i = some w.data := by
  unfold WIR.dataWithChannelRemoved
  rw [if_neg fun hc => absurd hc.1 (by omega)]
  exact congrArg some
    (removeChannelLoop_id (w.numChannels * 4) i (by omega) (by omega) (by omega) _ _ le_rfl)

/-- Witness for the amended C10: a 2-channel WIR with a ragged 3-byte
buffer and the out-of-range index 2 returns the buffer byte for byte. -/
theorem claim10_witness :
    (WIR.mk 2 1 0 0 [9, 8, 7]).dataWithChannelRemoved 2 = some [9, 8, 7] :=
  claim10_amended_out_of_range_identity (WIR.mk 2 1 0 0 [9, 8, 7]) 2 (by decide) (by decide)

/-- C5: for every 40-byte header blob, the parser extracts `channelCount`
as the unsigned 16-bit little-endian integer at bytes `[22,24)`,
`frameRate` as the unsigned 32-bit little-endian integer at `[24,28)`,
`secondaryRate` as the unsigned 32-bit little-endian integer at
`[28,32)`, and `channelMask` as the unsigned 16-bit little-endian integer
at `[32,34)`. -/
theorem claim5_header_fields (header : List Nat) (h : header.length = 40) :
    parseHeader header =
      some (u16At header 22, u32At header 24, u32At header 28, u16At header 32) := by
  unfold parseHeader
  rw [drop_take_two header 22 (by omega), drop_take_four header 24 (by omega),
    drop_take_four header 28 (by omega), drop_take_two header 32 (by omega)]
  simp [unpackU16, unpackU32, u16At, u32At]

/-- Witness for C5 on the 40-byte blob `0,1,...,39`: `channelCount`
decodes to `22 + 256*23 = 5910`, `frameRate` to `454695192`,
`secondaryRate` to `522067228`, `channelMask` to `32 + 256*33 = 8480`. -/
theorem claim5_witness :
    (List.range 40).length = 40 ∧
      parseHeader (List.range 40) = some (5910, 454695192, 522067228, 8480) := by
  refine ⟨by decide, ?_⟩
  rw [claim5_header_fields (List.range 40) (by decide)]
  decide

/-- Counterexample to C8 as stated: a 39-byte header blob — shorter than
the 40 bytes the claim requires — is still parsed to a full tuple,
because the reference parser never checks the header length and all four
slices it reads end by offset 34. -/
theorem claim8_counterexample :
    (List.range 39).length < 40 ∧
      parseHeader (List.range 39) = some (5910, 454695192, 522067228, 8480) := by
  constructor
  · decide
  · decide

/-- Counterexample to C4 as stated: the claim quantifies over every
`channelCount > 0` and `sampleRate > 0`, but at `channelCount = 1`,
`sampleRate = 2^30` the byte-rate field `1 * 2^30 * 4 = 2^32` overflows
`struct.pack`'s `I` format; the pack raises `struct.error` and no WAV
bytes are emitted at all, so no output begins with `RIFF`. -/
theorem claim4_counterexample : encode ((1 : Nat) : Int) 1073741824 [] = none := by decide

/-- C4 amended: provided additionally that each packed field fits its
width (`channelCount < 2^16`, `sampleRate < 2^32`,
`channelCount*sampleRate*4 < 2^32`, `N + 36 < 2^32` — the counterexample
shows some bound is forced), the encoder emits bytes beginning with
`RIFF`, with the little-endian RIFF size field `N + 0x2c - 8`, bytes
`[8,12)` equal to `WAVE`, an `fmt ` sub-chunk with size field 16 and
format tag 3, and a `data` sub-chunk whose size field is `N`, followed by
the `N` sample bytes verbatim. -/
theorem claim4_amended_wav_layout (c sr : Nat) (data : List Nat)
    (hc : 0 < c) (hsr : 0 < sr) (hc2 : c < 65536) (hsr2 : sr < 4294967296)
    (hbr : c * sr * 4 < 4294967296) (hN : data.length + 36 < 4294967296) :
    ∃ wav, encode (c : Int) sr data = some wav ∧
      wav.take 4 = [82, 73, 70, 70] ∧
      u32At wav 4 = data.length + 0x2c - 8 ∧
      (wav.drop 8).take 4 = [87, 65, 86, 69] ∧
      (wav.drop 12).take 4 = [102, 109, 116, 32] ∧
      u32At wav 16 = 16 ∧
      u16At wav 20 = 3 ∧
      (wav.drop 36).take 4 = [100, 97, 116, 97] ∧
      u32At wav 40 = data.length ∧
      wav.drop 44 = data := by
  have hencode := encode_eq (c : Int) sr data (by positivity) (by exact_mod_cast hc2)
    (by exact_mod_cast hsr2) (by exact_mod_cast hbr) (by exact_mod_cast hN)
  exact ⟨wavBytes c sr data, hencode, wavBytes_riff_magic _ _ _,
    wavBytes_riff_size _ _ _ (by omega), wavBytes_wave_magic _ _ _,
    wavBytes_fmt_magic _ _ _, wavBytes_fmt_size _ _ _, wavBytes_fmt_tag _ _ _,
    wavBytes_data_magic _ _ _, wavBytes_data_size _ _ _ (by omega),
    wavBytes_payload _ _ _⟩

/-- Witness for the amended C4 at `encode(2, 44100, 4 bytes)`: the RIFF
size field reads back `4 + 0x2c - 8 = 40` and the data size field `4`. -/
theorem claim4_witness :
    ∃ wav, encode ((2 : Nat) : Int) 44100 [10, 20, 30, 40] = some wav ∧
      wav.take 4 = [82, 73, 70, 70] ∧
      u32At wav 4 = 40 ∧
      (wav.drop 8).take 4 = [87, 65, 86, 69] ∧
      (wav.drop 12).take 4 = [102, 109, 116, 32] ∧
      u32At wav 16 = 16 ∧
      u16At wav 20 = 3 ∧
      (wav.drop 36).take 4 = [100, 97, 116, 97] ∧
      u32At wav 40 = 4 ∧
      wav.drop 44 = [10, 20, 30, 40] :=
  claim4_amended_wav_layout 2 44100 [10, 20, 30, 40] (by decide) (by decide) (by decide)
    (by decide) (by decide) (by decide)

/-- Counterexample to C7 as stated: the encoder performs no parameter
validation.  Called with `channelCount = 0` (and a nonzero sample rate)
it happily emits a complete container instead of failing. -/
theorem claim7_counterexample :
    (encode ((0 : Nat) : Int) 44100 [0, 0, 0, 0]).isSome = true := by decide

/-- C7 amended: there is no `InvalidParameters` check anywhere: whenever
`channelCount = 0` or `sampleRate = 0` and every packed field fits its
width, the encoder still succeeds and emits a (semantically meaningless)
container. -/
theorem claim7_amended_no_validation (c sr : Nat) (data : List Nat)
    (h0 : c = 0 ∨ sr = 0) (hc : c < 65536) (hsr : sr < 4294967296)
    (hN : data.length + 36 < 4294967296) :
    (encode (c : Int) sr data).isSome = true := by
  rw [encode_eq (c : Int) sr data (by positivity) (by exact_mod_cast hc)
    (by exact_mod_cast hsr)
    (by rcases h0 with h0 | h0 <;> subst h0 <;> simp)
    (by exact_mod_cast hN)]
  rfl

/-- Witness for the amended C7: `encode(0, 44100, 3 bytes)` emits a
container. -/
theorem claim7_witness :
    ((0 : Nat) = 0 ∨ (44100 : Nat) = 0) ∧
      (encode ((0 : Nat) : Int) 44100 [1, 2, 3]).isSome = true :=
  ⟨Or.inl rfl,
    claim7_amended_no_validation 0 44100 [1, 2, 3] (Or.inl rfl) (by decide) (by decide)
      (by decide)⟩

/-- Counterexample to C6 as stated: a WIR with `channelCount = 1` and a
5-byte payload (not a multiple of `1*4 = 4`) is converted to a complete
WAV byte stream; no `UnexpectedPayloadLength` (or any other) error is
ever raised. -/
theorem claim6_counterexample :
    ¬ ((WIR.mk 1 44100 0 0 [1, 2, 3, 4, 5]).numChannels * 4 ∣
        (WIR.mk 1 44100 0 0 [1, 2, 3, 4, 5]).data.length) ∧
      ((WIR.mk 1 44100 0 0 [1, 2, 3, 4, 5]).writeWav true).isSome = true := by
  constructor
  · decide
  · decide

/-- C6 amended: the conversion performs no payload-length validation at
all.  Whenever the conversion can complete (`channelCount ≥ 1` and
`frameRate ≥ 1` so the line-93 diagnostic does not divide by zero, and
every packed field fits its width), a payload length that is NOT a
multiple of `channelCount*4` still produces a complete WAV byte stream
with no error. -/
theorem claim6_amended_no_length_validation (w : WIR) (rm : Bool)
    (hndvd : ¬ (w.numChannels * 4 ∣ w.data.length))
    (hnc : 1 ≤ w.numChannels) (hnc2 : w.numChannels < 65536)
    (hfr : 1 ≤ w.framerate) (hfr2 : w.framerate < 4294967296)
    (hbr : w.numChannels * w.framerate * 4 < 4294967296)
    (hN : w.data.length + 36 < 4294967296) :
    (w.writeWav rm).isSome = true := by
  have hzero : ¬ (w.numChannels = 0 ∨ w.framerate = 0) := by omega
  have hcast : ((w.numChannels : Int)) * w.framerate * 4 < 4294967296 := by
    exact_mod_cast hbr
  unfold WIR.writeWav
  by_cases hc : (0 < w.channelsMask &&& Channels.MONO.value ∧
      w.channelsMask ≠ Channels.MONO.value) ∧ rm = true
  · rw [if_pos hc]
    have hd : w.dataWithChannelRemoved 0 =
        some (removeChannelLoop w.data.length (w.numChannels * 4) 0 w.data) := by
      unfold WIR.dataWithChannelRemoved
      rw [if_neg fun hcc => absurd hcc.1 (by omega)]
    simp only [hd]
    rw [if_neg hzero]
    have hdle : (removeChannelLoop w.data.length (w.numChannels * 4) 0 w.data).length ≤
        w.data.length := removeChannelLoop_length_le (w.numChannels * 4) 0 w.data.length w.data
    have hbr' : ((w.numChannels : Int) - 1) * w.framerate * 4 < 4294967296 := by
      refine lt_of_le_of_lt ?_ hcast
      exact mul_le_mul_of_nonneg_right
        (mul_le_mul_of_nonneg_right (by omega) (by positivity)) (by norm_num)
    rw [encode_eq ((w.numChannels : Int) - 1) w.framerate _ (by omega) (by omega)
      (by omega) hbr' (by omega)]
    rfl
  · rw [if_neg hc, if_neg hzero]
    rw [encode_eq (w.numChannels : Int) w.framerate w.data (by positivity)
      (by exact_mod_cast hnc2) (by exact_mod_cast hfr2) hcast (by exact_mod_cast hN)]
    rfl

/-- Witness for the amended C6: a 3-channel WIR with a 13-byte payload
(not a multiple of 12) and the MONO|STEREO mask is still converted (with
the ragged tail sliced). -/
theorem claim6_witness :
    ¬ ((WIR.mk 3 48000 0 12 [1, 2, 3, 4, 5, 6, 7, 8, 9, 10, 11, 12, 13]).numChannels * 4 ∣
        (WIR.mk 3 48000 0 12 [1, 2, 3, 4, 5, 6, 7, 8, 9, 10, 11, 12, 13]).data.length) ∧
      ((WIR.mk 3 48000 0 12 [1, 2, 3, 4, 5, 6, 7, 8, 9, 10, 11, 12, 13]).writeWav
        true).isSome = true :=
  ⟨by decide,
    claim6_amended_no_length_validation
      (WIR.mk 3 48000 0 12 [1, 2, 3, 4, 5, 6, 7, 8, 9, 10, 11, 12, 13]) true (by decide)
      (by decide) (by decide) (by decide) (by decide) (by decide) (by decide)⟩

/-- C3: whenever `writeWav` emits a WAV, the channel-removal transform
was applied exactly when the MONO bit (4) is set in `channelMask`, the
mask is not the MONO bit alone, and the caller has not opted out; in that
case the removed channel is index 0 and the emitted container's channel
field (the 16-bit little-endian value at bytes `[22,24)`) is
`channelCount - 1`, with the removed stream as the payload from byte 44;
otherwise the channel field is `channelCount` and the sample bytes pass
through unchanged. -/
theorem claim3_removal_policy (w : WIR) (rm : Bool) (wav : List Nat)
    (h : w.writeWav rm = some wav) :
    if (0 < w.channelsMask &&& Channels.MONO.value ∧
        w.channelsMask ≠ Channels.MONO.value) ∧ rm = true then
      ∃ d, w.dataWithChannelRemoved 0 = some d ∧
        u16At wav 22 = w.numChannels - 1 ∧ wav.drop 44 = d
    else
      u16At wav 22 = w.numChannels ∧ wav.drop 44 = w.data := by
  unfold WIR.writeWav at h
  by_cases hc : (0 < w.channelsMask &&& Channels.MONO.value ∧
      w.channelsMask ≠ Channels.MONO.value) ∧ rm = true
  · rw [if_pos hc] at h
    rw [if_pos hc]
    cases hd : w.dataWithChannelRemoved 0 with
    | none => simp [hd] at h
    | some d =>
      simp only [hd] at h
      by_cases hz : w.numChannels = 0 ∨ w.framerate = 0
      · rw [if_pos hz] at h
        exact absurd h (by simp)
      · rw [if_neg hz] at h
        obtain ⟨hb1, hb2, hb3, hb4, hb5, hwav⟩ := encode_some_inv _ _ _ _ h
        refine ⟨d, rfl, ?_, ?_⟩
        · rw [hwav, wavBytes_channels _ _ _ (by omega)]
          omega
        · rw [hwav]
          exact wavBytes_payload _ _ _
  · rw [if_neg hc] at h
    rw [if_neg hc]
    by_cases hz : w.numChannels = 0 ∨ w.framerate = 0
    · rw [if_pos hz] at h
      exact absurd h (by simp)
    · rw [if_neg hz] at h
      obtain ⟨hb1, hb2, hb3, hb4, hb5, hwav⟩ := encode_some_inv _ _ _ _ h
      constructor
      · rw [hwav, wavBytes_channels _ _ _ (by omega)]
        omega
      · rw [hwav]
        exact wavBytes_payload _ _ _

/-- Witness for C3 at the claim's own scenario: `channelMask = 12`
(MONO|STEREO), `channelCount = 3`, one 12-byte frame.  Under the default
(removal on) the emitted WAV's channel field is 2 and its payload is the
frame with channel 0 removed (`[5..12]`); with removal disabled the
channel field is 3 and the payload passes through unchanged. -/
theorem claim3_witness :
    (∃ d, (WIR.mk 3 48000 0 12 [1, 2, 3, 4, 5, 6, 7, 8, 9, 10, 11, 12]).dataWithChannelRemoved
          0 = some d ∧
        u16At [82, 73, 70, 70, 44, 0, 0, 0, 87, 65, 86, 69, 102, 109, 116, 32, 16, 0, 0, 0,
          3, 0, 2, 0, 128, 187, 0, 0, 0, 220, 5, 0, 4, 0, 32, 0, 100, 97, 116, 97, 8, 0, 0, 0,
          5, 6, 7, 8, 9, 10, 11, 12] 22 = 2 ∧
        List.drop 44 [82, 73, 70, 70, 44, 0, 0, 0, 87, 65, 86, 69, 102, 109, 116, 32, 16, 0,
          0, 0, 3, 0, 2, 0, 128, 187, 0, 0, 0, 220, 5, 0, 4, 0, 32, 0, 100, 97, 116, 97, 8, 0,
          0, 0, 5, 6, 7, 8, 9, 10, 11, 12] = d) ∧
      (u16At [82, 73, 70, 70, 48, 0, 0, 0, 87, 65, 86, 69, 102, 109, 116, 32, 16, 0, 0, 0,
          3, 0, 3, 0, 128, 187, 0, 0, 0, 202, 8, 0, 4, 0, 32, 0, 100, 97, 116, 97, 12, 0, 0,
          0, 1, 2, 3, 4, 5, 6, 7, 8, 9, 10, 11, 12] 22 = 3 ∧
        List.drop 44 [82, 73, 70, 70, 48, 0, 0, 0, 87, 65, 86, 69, 102, 109, 116, 32, 16, 0,
          0, 0, 3, 0, 3, 0, 128, 187, 0, 0, 0, 202, 8, 0, 4, 0, 32, 0, 100, 97, 116, 97, 12,
          0, 0, 0, 1, 2, 3, 4, 5, 6, 7, 8, 9, 10, 11, 12] =
          (WIR.mk 3 48000 0 12 [1, 2, 3, 4, 5, 6, 7, 8, 9, 10, 11, 12]).data) := by
  constructor
  · have h2 := claim3_removal_policy (WIR.mk 3 48000 0 12 [1, 2, 3, 4, 5, 6, 7, 8, 9, 10,
      11, 12]) true
      [82, 73, 70, 70, 44, 0, 0, 0, 87, 65, 86, 69, 102, 109, 116, 32, 16, 0, 0, 0, 3, 0,
        2, 0, 128, 187, 0, 0, 0, 220, 5, 0, 4, 0, 32, 0, 100, 97, 116, 97, 8, 0, 0, 0, 5, 6,
        7, 8, 9, 10, 11, 12] (by decide)
    rw [if_pos (by decide)] at h2
    exact h2
  · have h2 := claim3_removal_policy (WIR.mk 3 48000 0 12 [1, 2, 3, 4, 5, 6, 7, 8, 9, 10,
      11, 12]) false
      [82, 73, 70, 70, 48, 0, 0, 0, 87, 65, 86, 69, 102, 109, 116, 32, 16, 0, 0, 0, 3, 0,
        3, 0, 128, 187, 0, 0, 0, 202, 8, 0, 4, 0, 32, 0, 100, 97, 116, 97, 12, 0, 0, 0, 1, 2,
        3, 4, 5, 6, 7, 8, 9, 10, 11, 12] (by decide)
    rw [if_neg (by decide)] at h2
    exact h2

end Wir2Wav
